import Mathlib

/-!
Shallow embedding of the AWS IID node resolver plugin
(pkg/server/plugin/noderesolver/aws/iid.go) and proofs of the
specification claims about it.

Pointers to Go values are modelled with `Option`; `aws.StringValue`
dereferences with `""` as the nil default.  The remote EC2/IAM endpoints
and the injectable `newClient` hook are modelled as explicit function
parameters, and every remote interaction is recorded in an event trace so
that claims about which calls are issued can be stated.
-/

namespace SpireAwsIID

/-- Constant `pluginName` from the source. -/
def pluginName : String := "aws_iid"

/-- Constant `defaultRegion` from the source (unused by the core logic). -/
def defaultRegion : String := "us-east-1"

/-- Model of `*ec2.Tag`: both fields are `*string` in Go. -/
structure Tag where
  key : Option String
  value : Option String
deriving DecidableEq, Repr

/-- Model of `*ec2.GroupIdentifier` (a security-group reference). -/
structure GroupIdentifier where
  groupId : Option String
  groupName : Option String
deriving DecidableEq, Repr

/-- Model of `*ec2.IamInstanceProfile` as attached to an instance: only the
`Arn` field (`*string`) is read by the resolver. -/
structure IamInstanceProfileRef where
  arn : Option String
deriving DecidableEq, Repr

/-- Model of `*iam.Role`: only the `Arn` field (`*string`) is read. -/
structure Role where
  arn : Option String
deriving DecidableEq, Repr

/-- Model of `*iam.InstanceProfile`: only the `Roles` list is read. -/
structure InstanceProfile where
  roles : List Role
deriving DecidableEq, Repr

/-- Model of `*ec2.Instance`: the fields read by `resolveSpiffeID`. -/
structure Instance where
  tags : List Tag
  securityGroups : List GroupIdentifier
  iamInstanceProfile : Option IamInstanceProfileRef
deriving DecidableEq, Repr

/-- Model of `*ec2.Reservation`. -/
structure Reservation where
  instances : List Instance
deriving DecidableEq, Repr

/-- Model of `*ec2.Filter` with `Name` and `Values` dereferenced. -/
structure Ec2Filter where
  name : String
  values : List String
deriving DecidableEq, Repr

/-- The fixed `instanceFilters` value from the source: restrict the
describe-instances query to pending and running instances. -/
def instanceFilters : List Ec2Filter :=
  [{ name := "instance-state-name", values := ["pending", "running"] }]

/-- Model of `*ec2.DescribeInstancesInput` as built by `resolveSpiffeID`. -/
structure DescribeInstancesInput where
  instanceIds : List String
  filters : List Ec2Filter
deriving DecidableEq, Repr

/-- Model of `*ec2.DescribeInstancesOutput`. -/
structure DescribeInstancesOutput where
  reservations : List Reservation
deriving DecidableEq, Repr

/-- Model of `*iam.GetInstanceProfileInput`: the `InstanceProfileName`
field is a `*string` in Go, hence an `Option String` here. -/
structure GetInstanceProfileInput where
  instanceProfileName : Option String
deriving DecidableEq, Repr

/-- Model of `*iam.GetInstanceProfileOutput`. -/
structure GetInstanceProfileOutput where
  instanceProfile : InstanceProfile
deriving DecidableEq, Repr

/-- Decidable equality of `Except` results, used to evaluate concrete
runs of the model. -/
instance {e a : Type} [DecidableEq e] [DecidableEq a] : DecidableEq (Except e a) :=
  fun x y =>
    match x, y with
    | .error e1, .error e2 =>
      if h : e1 = e2 then .isTrue (by rw [h]) else .isFalse fun hc => h (by cases hc; rfl)
    | .ok v1, .ok v2 =>
      if h : v1 = v2 then .isTrue (by rw [h]) else .isFalse fun hc => h (by cases hc; rfl)
    | .error _, .ok _ => .isFalse fun hc => Except.noConfusion hc
    | .ok _, .error _ => .isFalse fun hc => Except.noConfusion hc

/-- Model of `aws.StringValue`: dereference a `*string`, with `""` for nil. -/
def stringValue : Option String → String
  | some s => s
  | none => ""

/-- Model of `*common.Selector`. -/
structure Selector where
  type : String
  value : String
deriving DecidableEq, Repr

/-- Errors produced by the plugin.  `newErr` models `iidError.New`,
`wrapErr` models `iidError.Wrap`, and `hookErr` models an error returned
by the injected `newClient` hook and passed through unchanged. -/
inductive ResolverError where
  | newErr (msg : String)
  | wrapErr (msg : String)
  | hookErr (msg : String)
deriving DecidableEq, Repr

/-- Model of `*aws.Config`: the credentials installed by `Configure`
(access key id, secret access key, token) and the region assigned by
`getRegionClient`. -/
structure AwsConfig where
  credentials : Option (String × String × String)
  region : Option String
deriving DecidableEq, Repr

/-- Model of `aws.NewConfig()`: a fresh configuration with no
credentials and no region. -/
def awsNewConfig : AwsConfig := { credentials := none, region := none }

/-- The mutable state of `IIDResolverPlugin`: the active configuration
(`p.conf`, nil before the first successful `Configure`) and the region
client cache (`p.clients`), with clients named by `Nat` handles. -/
structure PluginState where
  conf : Option AwsConfig
  clients : List (String × Nat)
deriving DecidableEq, Repr

/-- The state of a freshly constructed plugin (`NewIIDResolverPlugin`):
no configuration and an empty client cache. -/
def initialState : PluginState := { conf := none, clients := [] }

/-- Lookup of a region in the client cache (`p.clients[region]`). -/
def clientsLookup : List (String × Nat) → String → Option Nat
  | [], _ => none
  | (k, v) :: rest, r => if k = r then some v else clientsLookup rest r

/-- Observable events of one plugin call: a `newClient` hook invocation
and the two remote endpoint calls, each tagged with the client handle
that issued it. -/
inductive Event where
  | newClient (conf : AwsConfig)
  | describeInstances (client : Nat) (input : DescribeInstancesInput)
  | getInstanceProfile (client : Nat) (input : GetInstanceProfileInput)
deriving DecidableEq, Repr

/-- The remote AWS world: responses of the EC2 describe-instances and IAM
get-instance-profile endpoints, per client handle and request. -/
structure World where
  describeInstances : Nat → DescribeInstancesInput → Except String DescribeInstancesOutput
  getInstanceProfile : Nat → GetInstanceProfileInput → Except String GetInstanceProfileOutput

/-- The environment of the plugin.  `world` gives the remote responses and
`newClient` models the injected `p.hooks.newClient` factory.  `uriPath` is
modelled from the spec: it stands for the external general-purpose
identity parser `idutil.ParseSpiffeID` (repository code outside this
component), which the spec treats as a collaborator that either rejects
the identity string or yields the path component of the identity URI. -/
structure Env where
  uriPath : String → Except String String
  newClient : AwsConfig → Except ResolverError Nat
  world : World

/-- Splitting a character list at every slash, the list analogue of the
segment structure recognised by the anchored regular expression
`reAgentIDPath`.  The result always has at least one element; consecutive
slashes produce empty segments. -/
def splitSlash : List Char → List (List Char)
  | [] => [[]]
  | c :: rest =>
    if c = '/' then [] :: splitSlash rest
    else
      match splitSlash rest with
      | s :: ss => (c :: s) :: ss
      | [] => [[c]]

/-- Model of matching the path of an agent id against the anchored regular
expression `reAgentIDPath`, which requires the literal segments `spire`,
`agent`, `aws_iid` and then exactly three further non-empty slash-free
segments, returned as the three capture groups. -/
def reAgentIDPathMatch (path : String) : Option (String × String × String) :=
  match splitSlash path.data with
  | [p0, p1, p2, p3, x, y, z] =>
    if p0 = [] ∧ p1 = "spire".data ∧ p2 = "agent".data ∧ p3 = "aws_iid".data
        ∧ x ≠ [] ∧ y ≠ [] ∧ z ≠ [] then
      some (String.mk x, String.mk y, String.mk z)
    else
      none
  | _ => none

/-- Model of `parseAgentID`: first run the external identity parser
(`uriPath`, standing for `idutil.ParseSpiffeID` with
`AllowAnyTrustDomainAgent`) to obtain the path of the identity URI, then
match the path against `reAgentIDPath`.  On success the three capture
groups are returned as account id, region and instance id. -/
def parseAgentID (uriPath : String → Except String String) (spiffeID : String) :
    Except String (String × String × String) :=
  match uriPath spiffeID with
  | .error e => .error ("unable to parse agent id: " ++ e)
  | .ok path =>
    match reAgentIDPathMatch path with
    | none => .error "malformed agent id"
    | some (accountID, region, instanceId) => .ok (accountID, region, instanceId)

/-- Model of `resolveTags`: one raw selector value per tag. -/
def resolveTags (tags : List Tag) : List String :=
  tags.map fun tag => "tag:" ++ stringValue tag.key ++ ":" ++ stringValue tag.value

/-- Model of `resolveSecurityGroups`: two raw selector values per
security group. -/
def resolveSecurityGroups (sgs : List GroupIdentifier) : List String :=
  sgs.flatMap fun sg =>
    ["sg:id:" ++ stringValue sg.groupId, "sg:name:" ++ stringValue sg.groupName]

/-- Model of the loop body of `resolveInstanceProfile`: one raw selector
value per role whose `Arn` pointer is non-nil. -/
def resolveRoles : List Role → List String
  | [] => []
  | role :: rest =>
    match role.arn with
    | some arn => ("iamrole:" ++ stringValue (some arn)) :: resolveRoles rest
    | none => resolveRoles rest

/-- Model of `resolveInstanceProfile`. -/
def resolveInstanceProfile (instanceProfile : InstanceProfile) : List String :=
  resolveRoles instanceProfile.roles

/-- Boolean lexicographic (codepoint order) comparison of character
lists, the order used by `sort.Strings` in the source. -/
def charListLe : List Char → List Char → Bool
  | [], _ => true
  | _ :: _, [] => false
  | a :: as, b :: bs =>
    if a < b then true
    else if b < a then false
    else charListLe as bs

/-- Boolean lexicographic comparison of strings. -/
def strLeB (a b : String) : Bool := charListLe a.data b.data

/-- Insertion into a lexicographically sorted list of strings. -/
def insertStr (x : String) : List String → List String
  | [] => [x]
  | y :: rest => if strLeB x y then x :: y :: rest else y :: insertStr x rest

/-- Insertion sort of strings, the model of `sort.Strings`. -/
def sortStrings : List String → List String
  | [] => []
  | x :: rest => insertStr x (sortStrings rest)

/-- Model of the selector-set accumulation and final `sort.Strings` of
`resolveSpiffeID`: the Go code inserts every raw value into a
`map[string]bool` and sorts the keys, so the result is the sorted list of
the distinct raw values. -/
def sortedDedup (l : List String) : List String :=
  sortStrings l.dedup

/-- Model of the final selector construction of `resolveSpiffeID`: wrap
each normalized value as a `common.Selector` with the plugin name as
type. -/
def normalizeSelectors (l : List String) : List Selector :=
  (sortedDedup l).map fun v => { type := pluginName, value := v }

/-- Model of the body of the inner loop of `resolveSpiffeID` for one
instance: collect tag and security-group values, and if an IAM instance
profile is attached with a non-nil `Arn` pointer, issue the
get-instance-profile call (with the profile ARN as the
`InstanceProfileName`) and collect the role values; a failure of that
call is wrapped and fatal.  Returns the raw values and the event trace. -/
def collectInstance (world : World) (client : Nat) (inst : Instance) :
    Except ResolverError (List String) × List Event :=
  let base := resolveTags inst.tags ++ resolveSecurityGroups inst.securityGroups
  match inst.iamInstanceProfile with
  | none => (.ok base, [])
  | some profile =>
    match profile.arn with
    | none => (.ok base, [])
    | some arn =>
      let input : GetInstanceProfileInput := { instanceProfileName := some arn }
      match world.getInstanceProfile client input with
      | .error e => (.error (.wrapErr e), [.getInstanceProfile client input])
      | .ok out =>
        (.ok (base ++ resolveInstanceProfile out.instanceProfile),
          [.getInstanceProfile client input])

/-- The inner loop of `resolveSpiffeID` over the instances of one
reservation. -/
def collectInstanceList (world : World) (client : Nat) :
    List Instance → Except ResolverError (List String) × List Event
  | [] => (.ok [], [])
  | inst :: rest =>
    match collectInstance world client inst with
    | (.error e, evs) => (.error e, evs)
    | (.ok vs, evs) =>
      match collectInstanceList world client rest with
      | (.error e, evs2) => (.error e, evs ++ evs2)
      | (.ok vs2, evs2) => (.ok (vs ++ vs2), evs ++ evs2)

/-- The outer loop of `resolveSpiffeID` over the reservations of a
describe-instances response. -/
def collectReservations (world : World) (client : Nat) :
    List Reservation → Except ResolverError (List String) × List Event
  | [] => (.ok [], [])
  | rsv :: rest =>
    match collectInstanceList world client rsv.instances with
    | (.error e, evs) => (.error e, evs)
    | (.ok vs, evs) =>
      match collectReservations world client rest with
      | (.error e, evs2) => (.error e, evs ++ evs2)
      | (.ok vs2, evs2) => (.ok (vs ++ vs2), evs ++ evs2)

/-- Model of `getRegionClient`: return the cached client for the region
if present; otherwise require a live configuration (else the
"not configured" error), set the region on it, and invoke the `newClient`
hook, caching the result.  The double-checked locking of the source
collapses to a single check in this sequential model.  Returns the
result, the new plugin state, and the trace of hook invocations. -/
def getRegionClient (newClient : AwsConfig → Except ResolverError Nat)
    (st : PluginState) (region : String) :
    Except ResolverError Nat × PluginState × List Event :=
  match clientsLookup st.clients region with
  | some client => (.ok client, st, [])
  | none =>
    match st.conf with
    | none => (.error (.newErr "not configured"), st, [])
    | some conf =>
      let conf2 : AwsConfig := { conf with region := some region }
      match newClient conf2 with
      | .error e => (.error e, { st with conf := some conf2 }, [.newClient conf2])
      | .ok client =>
        (.ok client,
          { conf := some conf2, clients := (region, client) :: st.clients },
          [.newClient conf2])

/-- Model of `resolveSpiffeID`: parse the agent id (a parse failure is
logged and yields a nil selector pointer, not an error), obtain the
region client, issue the describe-instances call restricted by
`instanceFilters`, collect raw values over all returned instances, and
normalize them into the selector list.  A remote-call failure is wrapped
and returned as an error.  Returns the optional selector list (`none`
models the nil `*common.Selectors`), the new state and the event trace. -/
def resolveSpiffeID (env : Env) (st : PluginState) (spiffeID : String) :
    Except ResolverError (Option (List Selector)) × PluginState × List Event :=
  match parseAgentID env.uriPath spiffeID with
  | .error _ => (.ok none, st, [])
  | .ok (_, region, instanceID) =>
    match getRegionClient env.newClient st region with
    | (.error e, st1, evs) => (.error e, st1, evs)
    | (.ok client, st1, evs) =>
      let input : DescribeInstancesInput :=
        { instanceIds := [instanceID], filters := instanceFilters }
      match env.world.describeInstances client input with
      | .error e => (.error (.wrapErr e), st1, evs ++ [.describeInstances client input])
      | .ok out =>
        match collectReservations env.world client out.reservations with
        | (.error e, evs2) =>
          (.error e, st1, evs ++ .describeInstances client input :: evs2)
        | (.ok values, evs2) =>
          (.ok (some (normalizeSelectors values)), st1,
            evs ++ .describeInstances client input :: evs2)

/-- The result mapping of `Resolve` (`resp.Map`): a finite map from
identity strings to selector lists, modelled as a function. -/
def SelectorMap : Type := String → Option (List Selector)

/-- The empty result mapping. -/
def emptyMap : SelectorMap := fun _ => none

/-- Assignment `resp.Map[spiffeID] = selectors`. -/
def mapUpd (m : SelectorMap) (k : String) (v : List Selector) : SelectorMap :=
  fun k2 => if k2 = k then some v else m k2

/-- The loop of `Resolve` over the identity batch: resolve each identity
in order, inserting into the result mapping exactly when the selector
pointer is non-nil, and aborting with the error of the first failing
resolution. -/
def resolveLoop (env : Env) (st : PluginState) (ids : List String) (acc : SelectorMap) :
    Except ResolverError SelectorMap × PluginState × List Event :=
  match ids with
  | [] => (.ok acc, st, [])
  | id :: rest =>
    match resolveSpiffeID env st id with
    | (.error e, st1, evs) => (.error e, st1, evs)
    | (.ok sel?, st1, evs) =>
      let acc2 := match sel? with
        | none => acc
        | some sel => mapUpd acc id sel
      match resolveLoop env st1 rest acc2 with
      | (r, st2, evs2) => (r, st2, evs ++ evs2)

/-- Model of `Resolve`: run the batch loop starting from the empty result
mapping. -/
def Resolve (env : Env) (st : PluginState) (ids : List String) :
    Except ResolverError SelectorMap × PluginState × List Event :=
  resolveLoop env st ids emptyMap

/-- Model of `IIDResolverConfig`, the decoded HCL configuration. -/
structure IIDResolverConfig where
  accessKeyID : String
  secretAccessKey : String
deriving DecidableEq, Repr

/-- The environment-variable defaulting step of `Configure` for the
access key id. -/
def effectiveAccessKeyID (getenv : String → String) (config : IIDResolverConfig) : String :=
  if config.accessKeyID = "" then getenv "AWS_ACCESS_KEY_ID" else config.accessKeyID

/-- The environment-variable defaulting step of `Configure` for the
secret access key. -/
def effectiveSecretAccessKey (getenv : String → String) (config : IIDResolverConfig) :
    String :=
  if config.secretAccessKey = "" then getenv "AWS_SECRET_ACCESS_KEY"
  else config.secretAccessKey

/-- Model of `Configure`, applied to an already decoded configuration
(the HCL decoding itself is external to the resolution core): fill empty
credential fields from the environment, reject a configuration with a
missing field before touching the plugin state, and otherwise install a
fresh configuration carrying static credentials and reset the client
cache. -/
def Configure (getenv : String → String) (st : PluginState)
    (config : IIDResolverConfig) : Except ResolverError Unit × PluginState :=
  let accessKeyID := effectiveAccessKeyID getenv config
  let secretAccessKey := effectiveSecretAccessKey getenv config
  if accessKeyID ≠ "" ∧ secretAccessKey ≠ "" then
    (.ok (),
      { conf := some { awsNewConfig with
          credentials := some (accessKeyID, secretAccessKey, "") },
        clients := [] })
  else if accessKeyID ≠ "" ∧ secretAccessKey = "" then
    (.error (.newErr "configuration missing secret access key"), st)
  else if accessKeyID = "" ∧ secretAccessKey ≠ "" then
    (.error (.newErr "configuration missing access key id"), st)
  else
    (.error (.newErr "configuration missing both access key id and secret access key"), st)

/-! ### Properties of the sorting and deduplication step -/

theorem charListLe_iff (as bs : List Char) :
    charListLe as bs = true ↔ ¬ List.Lex (· < ·) bs as := by
  induction as generalizing bs with
  | nil =>
    cases bs with
    | nil => simp [charListLe]
    | cons b bs => simp [charListLe]
  | cons a as ih =>
    cases bs with
    | nil =>
      simp only [charListLe, Bool.false_eq_true, false_iff, not_not]
      exact List.Lex.nil
    | cons b bs =>
      by_cases hab : a < b
      · have hba : ¬ b < a := lt_asymm hab
        simp only [charListLe, if_pos hab, true_iff]
        intro hl
        cases hl with
        | cons h => exact lt_irrefl a hab
        | rel h => exact hba h
      · by_cases hba : b < a
        · simp only [charListLe, if_neg hab, if_pos hba, Bool.false_eq_true, false_iff, not_not]
          exact List.Lex.rel hba
        · have heq : b = a := le_antisymm (le_of_not_lt hab) (le_of_not_lt hba)
          subst heq
          simp only [charListLe, if_neg hab, if_neg hba]
          rw [ih]
          constructor
          · intro h hl
            exact h (List.Lex.cons_iff.mp hl)
          · intro h hl
            exact h (List.Lex.cons hl)

theorem strLeB_iff (a b : String) : strLeB a b = true ↔ a ≤ b := by
  have h1 : b < a ↔ List.Lex (· < ·) b.data a.data := String.lt_iff_toList_lt
  rw [strLeB, charListLe_iff, ← h1]
  exact not_lt

theorem insertStr_perm (x : String) (l : List String) : List.Perm (insertStr x l) (x :: l) := by
  induction l with
  | nil => exact List.Perm.refl _
  | cons y rest ih =>
    by_cases h : strLeB x y
    · simp [insertStr, h]
    · simp only [insertStr, if_neg h]
      exact (ih.cons y).trans (List.Perm.swap x y rest)

theorem sortStrings_perm (l : List String) : List.Perm (sortStrings l) l := by
  induction l with
  | nil => exact List.Perm.refl _
  | cons x rest ih => exact (insertStr_perm x _).trans (ih.cons x)

theorem sorted_insertStr (x : String) (l : List String)
    (h : List.Sorted (· ≤ ·) l) : List.Sorted (· ≤ ·) (insertStr x l) := by
  induction l with
  | nil => simp [insertStr]
  | cons y rest ih =>
    rw [List.sorted_cons] at h
    obtain ⟨hy, hrest⟩ := h
    by_cases hxy : strLeB x y
    · rw [insertStr, if_pos hxy, List.sorted_cons]
      refine ⟨?_, List.sorted_cons.mpr ⟨hy, hrest⟩⟩
      intro b hb
      rcases List.mem_cons.mp hb with hby | hbrest
      · rw [hby]
        exact (strLeB_iff x y).mp hxy
      · exact le_trans ((strLeB_iff x y).mp hxy) (hy b hbrest)
    · rw [insertStr, if_neg hxy, List.sorted_cons]
      refine ⟨?_, ih hrest⟩
      intro b hb
      rcases List.mem_cons.mp ((insertStr_perm x rest).mem_iff.mp hb) with hbx | hbrest
      · rw [hbx]
        exact le_of_not_le fun hle => hxy ((strLeB_iff x y).mpr hle)
      · exact hy b hbrest

theorem sorted_sortStrings (l : List String) : List.Sorted (· ≤ ·) (sortStrings l) := by
  induction l with
  | nil => simp [sortStrings]
  | cons x rest ih => exact sorted_insertStr x _ ih

theorem sortedDedup_nodup (l : List String) : (sortedDedup l).Nodup :=
  ((sortStrings_perm l.dedup).nodup_iff).mpr (List.nodup_dedup l)

theorem sortedDedup_sorted_lt (l : List String) :
    List.Sorted (· < ·) (sortedDedup l) :=
  (sorted_sortStrings l.dedup).lt_of_le (sortedDedup_nodup l)

theorem sortedDedup_eq_of_toFinset_eq {l1 l2 : List String}
    (h : l1.toFinset = l2.toFinset) : sortedDedup l1 = sortedDedup l2 :=
  List.eq_of_perm_of_sorted
    ((sortStrings_perm _).trans
      ((List.toFinset_eq_iff_perm_dedup.mp h).trans (sortStrings_perm _).symm))
    (sorted_sortStrings _) (sorted_sortStrings _)

theorem normalizeSelectors_values (l : List String) :
    (normalizeSelectors l).map Selector.value = sortedDedup l := by
  have hcomp :
      (Selector.value ∘ fun v => ({ type := pluginName, value := v } : Selector)) = id := rfl
  rw [normalizeSelectors, List.map_map, hcomp, List.map_id]

/-- C4: for every collection of raw selector values, normalization
deduplicates by exact string value and sorts the distinct values
lexicographically: the selector values of the output are strictly
ascending (hence pairwise distinct), and two inputs with the same set of
values yield the same selector sequence regardless of order and
multiplicity. -/
theorem C4_normalize_dedup_sorted (l1 l2 : List String)
    (h : l1.toFinset = l2.toFinset) :
    normalizeSelectors l1 = normalizeSelectors l2 ∧
    List.Sorted (· < ·) ((normalizeSelectors l1).map Selector.value) ∧
    ((normalizeSelectors l1).map Selector.value).Nodup := by
  refine ⟨?_, ?_, ?_⟩
  · rw [normalizeSelectors, normalizeSelectors, sortedDedup_eq_of_toFinset_eq h]
  · rw [normalizeSelectors_values]
    exact sortedDedup_sorted_lt l1
  · rw [normalizeSelectors_values]
    exact sortedDedup_nodup l1

/-- Witness for C4 at a concrete input: the inputs `["b", "a", "b"]` and
`["a", "b"]` have the same value set, and normalization yields the same
strictly sorted selector sequence for both. -/
theorem C4_witness :
    normalizeSelectors ["b", "a", "b"] = normalizeSelectors ["a", "b"] ∧
    List.Sorted (· < ·) ((normalizeSelectors ["b", "a", "b"]).map Selector.value) ∧
    ((normalizeSelectors ["b", "a", "b"]).map Selector.value).Nodup :=
  C4_normalize_dedup_sorted ["b", "a", "b"] ["a", "b"] (by decide)

/-! ### Helper lemmas about the resolution loop -/

theorem normalizeSelectors_nil : normalizeSelectors [] = [] := rfl

theorem collectReservations_no_instances (w : World) (c : Nat) (rs : List Reservation)
    (h : ∀ rsv ∈ rs, rsv.instances = []) :
    collectReservations w c rs = (.ok [], []) := by
  induction rs with
  | nil => rfl
  | cons rsv rest ih =>
    have h1 : rsv.instances = [] := h rsv (List.mem_cons_self rsv rest)
    have h2 : collectReservations w c rest = (.ok [], []) :=
      ih fun r hr => h r (List.mem_cons_of_mem _ hr)
    simp [collectReservations, h1, h2, collectInstanceList]

theorem resolveSpiffeID_some_parse_ok (env : Env) (st : PluginState) (id : String)
    (sel : List Selector) (st1 : PluginState) (evs : List Event)
    (h : resolveSpiffeID env st id = (.ok (some sel), st1, evs)) :
    ∃ t, parseAgentID env.uriPath id = .ok t := by
  rcases hp : parseAgentID env.uriPath id with e | t
  · simp only [resolveSpiffeID, hp] at h
    simp at h
  · exact ⟨t, rfl⟩

theorem resolveLoop_not_inserted (env : Env) (ids : List String) :
    ∀ (st : PluginState) (acc m : SelectorMap) (st2 : PluginState) (evs : List Event)
      (k : String) (e : String),
      resolveLoop env st ids acc = (.ok m, st2, evs) →
      parseAgentID env.uriPath k = .error e → m k = acc k := by
  induction ids with
  | nil =>
    intro st acc m st2 evs k e h hk
    simp only [resolveLoop, Prod.mk.injEq, Except.ok.injEq] at h
    rw [← h.1]
  | cons id rest ih =>
    intro st acc m st2 evs k e h hk
    simp only [resolveLoop] at h
    rcases hres : resolveSpiffeID env st id with ⟨r1, st1, evs1⟩
    rw [hres] at h
    cases r1 with
    | error e1 => simp at h
    | ok sel? =>
      cases sel? with
      | none =>
        dsimp only at h
        rcases hloop : resolveLoop env st1 rest acc with ⟨r2, st2x, evs2⟩
        rw [hloop] at h
        simp only [Prod.mk.injEq] at h
        obtain ⟨hr2, hst, hevs⟩ := h
        exact ih st1 acc m st2x evs2 k e (by rw [hloop, hr2]) hk
      | some sel =>
        dsimp only at h
        rcases hloop : resolveLoop env st1 rest (mapUpd acc id sel) with ⟨r2, st2x, evs2⟩
        rw [hloop] at h
        simp only [Prod.mk.injEq] at h
        obtain ⟨hr2, hst, hevs⟩ := h
        have hm : m k = mapUpd acc id sel k :=
          ih st1 (mapUpd acc id sel) m st2x evs2 k e (by rw [hloop, hr2]) hk
        rw [hm, mapUpd]
        have hne : k ≠ id := by
          intro hkid
          obtain ⟨t, ht⟩ := resolveSpiffeID_some_parse_ok env st id sel st1 evs1 hres
          rw [← hkid, hk] at ht
          exact Except.noConfusion ht
        rw [if_neg hne]

theorem resolveLoop_append (env : Env) (l1 : List String) :
    ∀ (l2 : List String) (st : PluginState) (acc : SelectorMap),
      resolveLoop env st (l1 ++ l2) acc =
        match resolveLoop env st l1 acc with
        | (.error e, st1, evs) => (.error e, st1, evs)
        | (.ok m, st1, evs) =>
          match resolveLoop env st1 l2 m with
          | (r, st2, evs2) => (r, st2, evs ++ evs2) := by
  induction l1 with
  | nil =>
    intro l2 st acc
    rcases hloop : resolveLoop env st l2 acc with ⟨r, st2, evs2⟩
    rw [show resolveLoop env st [] acc = (.ok acc, st, []) from rfl]
    simp only [List.nil_append, hloop, List.nil_append]
  | cons id rest ih =>
    intro l2 st acc
    rcases hres : resolveSpiffeID env st id with ⟨r1, st1, evs1⟩
    simp only [List.cons_append, resolveLoop, hres]
    cases r1 with
    | error e1 => rfl
    | ok sel? =>
      cases sel? with
      | none =>
        dsimp only
        simp only [List.append_eq]
        rw [ih l2 st1 acc]
        rcases hloop : resolveLoop env st1 rest acc with ⟨r2, st2x, evs2⟩
        cases r2 with
        | error e2 => rfl
        | ok m2 =>
          rcases hloop2 : resolveLoop env st2x l2 m2 with ⟨r3, st3, evs3⟩
          simp [hloop2, List.append_assoc]
      | some sel =>
        dsimp only
        simp only [List.append_eq]
        rw [ih l2 st1 (mapUpd acc id sel)]
        rcases hloop : resolveLoop env st1 rest (mapUpd acc id sel) with ⟨r2, st2x, evs2⟩
        cases r2 with
        | error e2 => rfl
        | ok m2 =>
          rcases hloop2 : resolveLoop env st2x l2 m2 with ⟨r3, st3, evs3⟩
          simp [hloop2, List.append_assoc]

theorem collectInstance_error_wrapped (w : World) (c : Nat) (inst : Instance)
    (e : ResolverError) (evs : List Event)
    (h : collectInstance w c inst = (.error e, evs)) : ∃ s, e = .wrapErr s := by
  rcases hprof : inst.iamInstanceProfile with _ | prof
  · simp [collectInstance, hprof] at h
  · rcases harn : prof.arn with _ | arn
    · simp [collectInstance, hprof, harn] at h
    · rcases hcall : w.getInstanceProfile c { instanceProfileName := some arn } with er | out
      · simp only [collectInstance, hprof, harn, hcall, Prod.mk.injEq,
          Except.error.injEq] at h
        exact ⟨er, h.1.symm⟩
      · simp [collectInstance, hprof, harn, hcall] at h

theorem collectInstanceList_error_wrapped (w : World) (c : Nat) (l : List Instance) :
    ∀ (e : ResolverError) (evs : List Event),
      collectInstanceList w c l = (.error e, evs) → ∃ s, e = .wrapErr s := by
  induction l with
  | nil =>
    intro e evs h
    simp [collectInstanceList] at h
  | cons inst rest ih =>
    intro e evs h
    simp only [collectInstanceList] at h
    rcases hinst : collectInstance w c inst with ⟨r1, evs1⟩
    rw [hinst] at h
    cases r1 with
    | error e1 =>
      simp only [Prod.mk.injEq, Except.error.injEq] at h
      exact h.1 ▸ collectInstance_error_wrapped w c inst e1 evs1 hinst
    | ok vs =>
      rcases hrest : collectInstanceList w c rest with ⟨r2, evs2⟩
      rw [hrest] at h
      cases r2 with
      | error e2 =>
        simp only [Prod.mk.injEq, Except.error.injEq] at h
        exact h.1 ▸ ih e2 evs2 hrest
      | ok vs2 => simp at h

theorem collectReservations_error_wrapped (w : World) (c : Nat) (rs : List Reservation) :
    ∀ (e : ResolverError) (evs : List Event),
      collectReservations w c rs = (.error e, evs) → ∃ s, e = .wrapErr s := by
  induction rs with
  | nil =>
    intro e evs h
    simp [collectReservations] at h
  | cons rsv rest ih =>
    intro e evs h
    simp only [collectReservations] at h
    rcases hinst : collectInstanceList w c rsv.instances with ⟨r1, evs1⟩
    rw [hinst] at h
    cases r1 with
    | error e1 =>
      simp only [Prod.mk.injEq, Except.error.injEq] at h
      exact h.1 ▸ collectInstanceList_error_wrapped w c rsv.instances e1 evs1 hinst
    | ok vs =>
      rcases hrest : collectReservations w c rest with ⟨r2, evs2⟩
      rw [hrest] at h
      cases r2 with
      | error e2 =>
        simp only [Prod.mk.injEq, Except.error.injEq] at h
        exact h.1 ▸ ih e2 evs2 hrest
      | ok vs2 => simp at h

theorem resolveSpiffeID_error_wrapped (env : Env) (st : PluginState) (id a r i : String)
    (c : Nat) (stc : PluginState) (evsc : List Event) (err : ResolverError)
    (st2 : PluginState) (evs2 : List Event)
    (hp : parseAgentID env.uriPath id = .ok (a, r, i))
    (hc : getRegionClient env.newClient st r = (.ok c, stc, evsc))
    (he : resolveSpiffeID env st id = (.error err, st2, evs2)) :
    ∃ s, err = .wrapErr s := by
  simp only [resolveSpiffeID, hp, hc] at he
  rcases hd : env.world.describeInstances c
      { instanceIds := [i], filters := instanceFilters } with e0 | out
  · rw [hd] at he
    simp only [Prod.mk.injEq, Except.error.injEq] at he
    exact ⟨e0, he.1.symm⟩
  · rw [hd] at he
    dsimp only at he
    rcases hcr : collectReservations env.world c out.reservations with ⟨r1, evs1⟩
    rw [hcr] at he
    cases r1 with
    | error e1 =>
      simp only [Prod.mk.injEq, Except.error.injEq] at he
      exact he.1 ▸ collectReservations_error_wrapped env.world c out.reservations e1 evs1 hcr
    | ok vs => simp at he

/-! ### Concrete fixtures used by counterexamples and witnesses -/

/-- A concrete well-formed agent identity: account `a`, region `r`,
instance `i`. -/
def idFx : String := "spiffe://d/spire/agent/aws_iid/a/r/i"

/-- A concrete malformed identity. -/
def badIdFx : String := "malformed"

/-- Concrete identity-parser fixture: accepts exactly `idFx`. -/
def uriPathFx : String → Except String String := fun s =>
  if s = idFx then .ok "/spire/agent/aws_iid/a/r/i" else .error "bad"

/-- Concrete world whose describe-instances call succeeds with zero
matching instances (the instance was filtered out or not found). -/
def worldNoMatchFx : World where
  describeInstances := fun _ _ => .ok { reservations := [] }
  getInstanceProfile := fun _ _ => .ok { instanceProfile := { roles := [] } }

/-- Concrete world whose describe-instances call fails. -/
def worldDescribeFailFx : World where
  describeInstances := fun _ _ => .error "boom"
  getInstanceProfile := fun _ _ => .ok { instanceProfile := { roles := [] } }

/-- Environment over `worldNoMatchFx`. -/
def envNoMatchFx : Env where
  uriPath := uriPathFx
  newClient := fun _ => .ok 0
  world := worldNoMatchFx

/-- Environment over `worldDescribeFailFx`. -/
def envDescribeFailFx : Env where
  uriPath := uriPathFx
  newClient := fun _ => .ok 0
  world := worldDescribeFailFx

/-- A configured plugin state with a cached client `0` for region `r`. -/
def stConfiguredFx : PluginState :=
  { conf := some awsNewConfig, clients := [("r", 0)] }

/-! ### Claims C1, C2, C3 -/

/-- C1 (amended): for every identity that parses successfully and whose
instance-description query succeeds but returns zero matching instances,
`Resolve` places an entry with an empty selector set in the result
mapping, keyed by that identity (the identity is not omitted; only parse
failures are omitted). -/
theorem C1_zero_instances_present_empty_entry (env : Env) (st : PluginState)
    (id a r i : String) (c : Nat) (st1 : PluginState) (evs : List Event)
    (out : DescribeInstancesOutput)
    (hp : parseAgentID env.uriPath id = .ok (a, r, i))
    (hc : getRegionClient env.newClient st r = (.ok c, st1, evs))
    (hd : env.world.describeInstances c
        { instanceIds := [i], filters := instanceFilters } = .ok out)
    (hz : ∀ rsv ∈ out.reservations, rsv.instances = []) :
    ∃ m st2 evs2, Resolve env st [id] = (.ok m, st2, evs2) ∧ m id = some [] := by
  have hcr := collectReservations_no_instances env.world c out.reservations hz
  refine ⟨mapUpd emptyMap id (normalizeSelectors []), st1, ?_, ?_, ?_⟩
  · exact (evs ++ [.describeInstances c { instanceIds := [i], filters := instanceFilters }])
      ++ []
  · simp only [Resolve, resolveLoop, resolveSpiffeID, hp, hc, hd, hcr]
  · simp [mapUpd, normalizeSelectors_nil]

/-- Counterexample to C1 as stated: in a configured environment in which
the identity parses and the describe-instances call succeeds with zero
matching instances, the result mapping of `Resolve` does have an entry
keyed by the identity (with an empty selector set) instead of omitting
it. -/
theorem C1_counterexample :
    (match (Resolve envNoMatchFx stConfiguredFx [idFx]).1 with
      | .ok m => m idFx
      | .error _ => none) = some [] := by decide

/-- Witness for C1 (amended) at the concrete fixture. -/
theorem C1_witness :
    ∃ m st2 evs2,
      Resolve envNoMatchFx stConfiguredFx [idFx] = (.ok m, st2, evs2) ∧
      m idFx = some [] :=
  C1_zero_instances_present_empty_entry envNoMatchFx stConfiguredFx idFx "a" "r" "i" 0
    stConfiguredFx [] { reservations := [] } (by decide) (by decide) (by decide)
    (by intro rsv h; cases h)

/-- C2: a parse failure on one identity is non-fatal: the batch result is
the same as if the malformed identity were not in the batch at all, and
in particular the malformed identity is absent from the result mapping
while the other identities still resolve. -/
theorem C2_parse_failure_nonfatal (env : Env) (st : PluginState) (bad : String)
    (e : String) (rest : List String)
    (hbad : parseAgentID env.uriPath bad = .error e) :
    Resolve env st (bad :: rest) = Resolve env st rest ∧
    (∀ m st2 evs, Resolve env st (bad :: rest) = (.ok m, st2, evs) → m bad = none) := by
  have hskip : resolveSpiffeID env st bad = (.ok none, st, []) := by
    simp only [resolveSpiffeID, hbad]
  constructor
  · simp only [Resolve, resolveLoop, hskip]
    rcases hloop : resolveLoop env st rest emptyMap with ⟨r2, st2, evs2⟩
    simp
  · intro m st2 evs h
    exact resolveLoop_not_inserted env (bad :: rest) st emptyMap m st2 evs bad e h hbad

/-- Witness for C2 at the concrete fixture: the malformed identity does
not prevent the well-formed identity from resolving. -/
theorem C2_witness :
    Resolve envNoMatchFx stConfiguredFx [badIdFx, idFx] =
      Resolve envNoMatchFx stConfiguredFx [idFx] ∧
    (∀ m st2 evs,
      Resolve envNoMatchFx stConfiguredFx [badIdFx, idFx] = (.ok m, st2, evs) →
      m badIdFx = none) :=
  C2_parse_failure_nonfatal envNoMatchFx stConfiguredFx badIdFx
    "unable to parse agent id: bad" [idFx] (by decide)

/-- C3: once an identity gets past parsing and client construction, any
error of either remote call is fatal to the whole batch: the error is a
wrapped remote error, and `Resolve` on any batch containing the identity
returns that error and no result mapping. -/
theorem C3_remote_error_fatal (env : Env) (st : PluginState) (ids1 : List String)
    (id a r i : String) (ids2 : List String) (m1 : SelectorMap) (st1 : PluginState)
    (evs1 : List Event) (c : Nat) (stc : PluginState) (evsc : List Event)
    (err : ResolverError) (st2 : PluginState) (evs2 : List Event)
    (hpre : resolveLoop env st ids1 emptyMap = (.ok m1, st1, evs1))
    (hp : parseAgentID env.uriPath id = .ok (a, r, i))
    (hc : getRegionClient env.newClient st1 r = (.ok c, stc, evsc))
    (he : resolveSpiffeID env st1 id = (.error err, st2, evs2)) :
    (∃ s, err = .wrapErr s) ∧
    (Resolve env st (ids1 ++ id :: ids2)).1 = .error err := by
  constructor
  · exact resolveSpiffeID_error_wrapped env st1 id a r i c stc evsc err st2 evs2 hp hc he
  · rw [Resolve, resolveLoop_append env ids1 (id :: ids2) st emptyMap, hpre]
    simp only [resolveLoop, he]

/-- Witness for C3 at the concrete fixture: a failing describe-instances
call aborts the batch with a wrapped error. -/
theorem C3_witness :
    (∃ s, ResolverError.wrapErr "boom" = .wrapErr s) ∧
    (Resolve envDescribeFailFx stConfiguredFx ([] ++ idFx :: [badIdFx])).1 =
      .error (.wrapErr "boom") :=
  C3_remote_error_fatal envDescribeFailFx stConfiguredFx [] idFx "a" "r" "i" [badIdFx]
    emptyMap stConfiguredFx [] 0 stConfiguredFx []
    (.wrapErr "boom") stConfiguredFx
    [.describeInstances 0 { instanceIds := ["i"], filters := instanceFilters }]
    rfl (by decide) (by decide) (by decide)

/-! ### Claims C5, C7, C8 -/

/-- C5: after applying environment-variable defaults, a configuration
with exactly one non-empty credential field is rejected with a
descriptive error naming the missing field and the plugin state is left
untouched; a configuration with both fields non-empty succeeds and
installs static credentials with a reset client cache. -/
theorem C5_configure_credential_validation (getenv : String → String) (st : PluginState)
    (config : IIDResolverConfig) :
    (effectiveAccessKeyID getenv config ≠ "" → effectiveSecretAccessKey getenv config = "" →
      Configure getenv st config =
        (.error (.newErr "configuration missing secret access key"), st)) ∧
    (effectiveAccessKeyID getenv config = "" → effectiveSecretAccessKey getenv config ≠ "" →
      Configure getenv st config =
        (.error (.newErr "configuration missing access key id"), st)) ∧
    (effectiveAccessKeyID getenv config ≠ "" → effectiveSecretAccessKey getenv config ≠ "" →
      Configure getenv st config =
        (.ok (),
          { conf :=
              some { credentials := some (effectiveAccessKeyID getenv config, effectiveSecretAccessKey getenv config, ""), region := none },
            clients := [] })) := by
  refine ⟨fun h1 h2 => ?_, fun h1 h2 => ?_, fun h1 h2 => ?_⟩ <;>
    simp [Configure, awsNewConfig, h1, h2]

/-- Witness for C5 at concrete configurations: one error of each kind and
one successful installation. -/
theorem C5_witness :
    Configure (fun _ => "") initialState { accessKeyID := "AK", secretAccessKey := "" } =
      (.error (.newErr "configuration missing secret access key"), initialState) ∧
    Configure (fun _ => "") initialState { accessKeyID := "", secretAccessKey := "SK" } =
      (.error (.newErr "configuration missing access key id"), initialState) ∧
    Configure (fun _ => "") initialState { accessKeyID := "AK", secretAccessKey := "SK" } =
      (.ok (),
        { conf := some { credentials := some ("AK", "SK", ""), region := none },
          clients := [] }) :=
  ⟨(C5_configure_credential_validation (fun _ => "") initialState
      { accessKeyID := "AK", secretAccessKey := "" }).1 (by decide) (by decide),
   (C5_configure_credential_validation (fun _ => "") initialState
      { accessKeyID := "", secretAccessKey := "SK" }).2.1 (by decide) (by decide),
   (C5_configure_credential_validation (fun _ => "") initialState
      { accessKeyID := "AK", secretAccessKey := "SK" }).2.2 (by decide) (by decide)⟩

theorem resolveLoop_unconfigured (env : Env) (ids : List String)
    (h : ∃ id ∈ ids, ∃ t, parseAgentID env.uriPath id = .ok t) :
    ∀ acc, resolveLoop env initialState ids acc =
      (.error (.newErr "not configured"), initialState, []) := by
  induction ids with
  | nil =>
    obtain ⟨id, hid, _⟩ := h
    cases hid
  | cons id rest ih =>
    intro acc
    rcases hp : parseAgentID env.uriPath id with e | t
    · have hskip : resolveSpiffeID env initialState id = (.ok none, initialState, []) := by
        simp only [resolveSpiffeID, hp]
      have hrest : ∃ id2 ∈ rest, ∃ t, parseAgentID env.uriPath id2 = .ok t := by
        obtain ⟨id2, hid2, t, ht⟩ := h
        rcases List.mem_cons.mp hid2 with hEq | hmem
        · rw [hEq, hp] at ht
          exact absurd ht (by simp)
        · exact ⟨id2, hmem, t, ht⟩
      simp only [resolveLoop, hskip]
      rw [ih hrest acc]
      rfl
    · obtain ⟨a, r, i⟩ := t
      have hfail : resolveSpiffeID env initialState id =
          (.error (.newErr "not configured"), initialState, []) := by
        simp [resolveSpiffeID, hp, getRegionClient, initialState, clientsLookup]
      simp only [resolveLoop, hfail]

/-- C7: calling `Resolve` on a batch containing a well-formed identity
before any successful `Configure` returns the "not configured"
configuration error, leaves the state unchanged, and performs no remote
calls and no client construction (the event trace is empty). -/
theorem C7_resolve_before_configure (env : Env) (ids : List String)
    (h : ∃ id ∈ ids, ∃ t, parseAgentID env.uriPath id = .ok t) :
    Resolve env initialState ids =
      (.error (.newErr "not configured"), initialState, []) :=
  resolveLoop_unconfigured env ids h emptyMap

/-- Witness for C7 at the concrete fixture identity. -/
theorem C7_witness :
    Resolve envNoMatchFx initialState [idFx] =
      (.error (.newErr "not configured"), initialState, []) :=
  C7_resolve_before_configure envNoMatchFx [idFx]
    ⟨idFx, List.mem_cons_self idFx [], ("a", "r", "i"), by decide⟩

/-- C8: per configuration epoch the client factory runs at most once per
region: a `getRegionClient` call that returned a client leaves a state
from which every further `getRegionClient` for that region returns the
same client with no factory invocation and no state change; and a
successful `Configure` resets the entire client cache. -/
theorem C8_client_cache_reuse_and_reset :
    (∀ (nc : AwsConfig → Except ResolverError Nat) (st : PluginState) (region : String)
        (c : Nat) (st1 : PluginState) (evs : List Event),
        getRegionClient nc st region = (.ok c, st1, evs) →
        getRegionClient nc st1 region = (.ok c, st1, [])) ∧
    (∀ (getenv : String → String) (st st1 : PluginState) (config : IIDResolverConfig)
        (u : Unit), Configure getenv st config = (.ok u, st1) → st1.clients = []) := by
  constructor
  · intro nc st region c st1 evs h
    simp only [getRegionClient] at h
    rcases hlook : clientsLookup st.clients region with _ | c0
    · rw [hlook] at h
      rcases hconf : st.conf with _ | conf
      · rw [hconf] at h
        simp at h
      · rw [hconf] at h
        dsimp only at h
        rcases hnew : nc { conf with region := some region } with e | c1
        · rw [hnew] at h
          simp at h
        · rw [hnew] at h
          simp only [Prod.mk.injEq, Except.ok.injEq] at h
          obtain ⟨hc, hst, hevs⟩ := h
          rw [← hst, ← hc]
          simp [getRegionClient, clientsLookup]
    · rw [hlook] at h
      simp only [Prod.mk.injEq, Except.ok.injEq] at h
      obtain ⟨hc, hst, hevs⟩ := h
      rw [← hst, ← hc]
      simp [getRegionClient, hlook]
  · intro getenv st st1 config u h
    simp only [Configure] at h
    split_ifs at h with h1 h2 h3
    · simp only [Prod.mk.injEq] at h
      rw [← h.2]
    · simp at h
    · simp at h
    · simp at h

/-- Witness for C8: a cached-region call is answered from the cache with
no construction, and a successful configuration resets the cache. -/
theorem C8_witness :
    getRegionClient (fun _ => .ok 0) stConfiguredFx "r" = (.ok 0, stConfiguredFx, []) ∧
    ({ conf := some { credentials := some ("AK", "SK", ""), region := none },
       clients := [] } : PluginState).clients = [] :=
  ⟨C8_client_cache_reuse_and_reset.1 (fun _ => .ok 0)
      stConfiguredFx "r" 0 stConfiguredFx [] (by decide),
   C8_client_cache_reuse_and_reset.2 (fun _ => "") initialState
      { conf := some { credentials := some ("AK", "SK", ""), region := none },
        clients := [] }
      { accessKeyID := "AK", secretAccessKey := "SK" } () (by decide)⟩

/-! ### Claims C9 and C10 -/

/-- C9 (amended): the instance-profile lookup is issued exactly when the
instance has an attached IAM instance profile whose ARN pointer is
present (non-nil, even if the ARN string is empty), and a selector
`iamrole:<arn>` is emitted for each role whose ARN pointer is present
(again even if empty); roles with a nil ARN pointer yield no selector. -/
theorem C9_profile_lookup_and_roles (w : World) (c : Nat) (inst : Instance) :
    ((∀ prof, inst.iamInstanceProfile = some prof → ∀ arn, prof.arn = some arn →
        (collectInstance w c inst).2 =
          [.getInstanceProfile c { instanceProfileName := some arn }]) ∧
     ((inst.iamInstanceProfile = none ∨
        ∃ prof, inst.iamInstanceProfile = some prof ∧ prof.arn = none) →
        (collectInstance w c inst).2 = [])) ∧
    (∀ roles : List Role,
       resolveRoles roles =
         roles.filterMap fun role => role.arn.map fun arn => "iamrole:" ++ arn) := by
  refine ⟨⟨?_, ?_⟩, ?_⟩
  · intro prof hprof arn harn
    rcases hcall : w.getInstanceProfile c { instanceProfileName := some arn } with e | out <;>
      simp [collectInstance, hprof, harn, hcall]
  · intro h
    rcases h with hnone | ⟨prof, hprof, harn⟩
    · simp [collectInstance, hnone]
    · simp [collectInstance, hprof, harn]
  · intro roles
    induction roles with
    | nil => rfl
    | cons role rest ih =>
      rcases harn : role.arn with _ | arn <;>
        simp [resolveRoles, harn, ih, stringValue, List.filterMap_cons]

/-- Counterexample to C9 as stated: an instance profile attached with a
present but empty ARN string still triggers the secondary lookup, and a
role with a present but empty ARN still yields the selector `iamrole:`,
contradicting the claim that a non-empty ARN is required in both
places. -/
theorem C9_counterexample :
    (collectInstance worldNoMatchFx 0
        { tags := [], securityGroups := [],
          iamInstanceProfile := some { arn := some "" } }).2 =
      [.getInstanceProfile 0 { instanceProfileName := some "" }] ∧
    resolveRoles [{ arn := some "" }] = ["iamrole:"] := by
  constructor
  · decide
  · decide

/-- Witness for C9 (amended) at a concrete instance with an attached
profile. -/
theorem C9_witness :
    (collectInstance worldNoMatchFx 0
        { tags := [], securityGroups := [],
          iamInstanceProfile := some { arn := some "arn:p" } }).2 =
      [.getInstanceProfile 0 { instanceProfileName := some "arn:p" }] :=
  (C9_profile_lookup_and_roles worldNoMatchFx 0
      { tags := [], securityGroups := [],
        iamInstanceProfile := some { arn := some "arn:p" } }).1.1
    { arn := some "arn:p" } rfl "arn:p" rfl

/-- C10: the instance-profile lookup request carries the full profile ARN
as the `InstanceProfileName` field of the request. -/
theorem C10_profile_name_is_arn (w : World) (c : Nat) (inst : Instance)
    (prof : IamInstanceProfileRef) (arn : String)
    (hprof : inst.iamInstanceProfile = some prof) (harn : prof.arn = some arn) :
    (collectInstance w c inst).2 =
      [.getInstanceProfile c { instanceProfileName := some arn }] := by
  rcases hcall : w.getInstanceProfile c { instanceProfileName := some arn } with e | out <;>
    simp [collectInstance, hprof, harn, hcall]

/-- Witness for C10 at a concrete instance. -/
theorem C10_witness :
    (collectInstance worldNoMatchFx 3
        { tags := [], securityGroups := [],
          iamInstanceProfile := some { arn := some "arn:aws:iam::1:instance-profile/p" } }).2 =
      [.getInstanceProfile 3
        { instanceProfileName := some "arn:aws:iam::1:instance-profile/p" }] :=
  C10_profile_name_is_arn worldNoMatchFx 3
    { tags := [], securityGroups := [],
      iamInstanceProfile := some { arn := some "arn:aws:iam::1:instance-profile/p" } }
    { arn := some "arn:aws:iam::1:instance-profile/p" }
    "arn:aws:iam::1:instance-profile/p" rfl rfl

/-! ### Claim C6: the agent id path grammar -/

theorem splitSlash_ne_nil (xs : List Char) : splitSlash xs ≠ [] := by
  cases xs with
  | nil => simp [splitSlash]
  | cons c rest =>
    by_cases h : c = '/'
    · simp [splitSlash, h]
    · simp only [splitSlash, if_neg h]
      rcases hs : splitSlash rest with _ | ⟨s, ss⟩ <;> simp

theorem splitSlash_cons_slash (L : List Char) :
    splitSlash ('/' :: L) = [] :: splitSlash L := by
  simp [splitSlash]

theorem splitSlash_append (xs : List Char) (ys : List Char) (h : '/' ∉ xs) :
    splitSlash (xs ++ '/' :: ys) = xs :: splitSlash ys := by
  induction xs with
  | nil => simp [splitSlash]
  | cons c rest ih =>
    have hc : c ≠ '/' := fun hEq => h (hEq ▸ List.mem_cons_self c rest)
    have hrest : '/' ∉ rest := fun hm => h (List.mem_cons_of_mem c hm)
    simp only [List.cons_append, splitSlash, if_neg hc, List.append_eq, ih hrest]

theorem splitSlash_no_slash (xs : List Char) (h : '/' ∉ xs) : splitSlash xs = [xs] := by
  induction xs with
  | nil => rfl
  | cons c rest ih =>
    have hc : c ≠ '/' := fun hEq => h (hEq ▸ List.mem_cons_self c rest)
    have hrest : '/' ∉ rest := fun hm => h (List.mem_cons_of_mem c hm)
    simp only [splitSlash, if_neg hc, ih hrest]

/-- Joining segments with slashes, the inverse of `splitSlash`. -/
def joinSlash : List (List Char) → List Char
  | [] => []
  | [s] => s
  | s :: t :: rest => s ++ '/' :: joinSlash (t :: rest)

theorem joinSlash_splitSlash (xs : List Char) : joinSlash (splitSlash xs) = xs := by
  induction xs with
  | nil => rfl
  | cons c rest ih =>
    by_cases h : c = '/'
    · subst h
      rw [splitSlash_cons_slash]
      rcases hs : splitSlash rest with _ | ⟨t, ss⟩
      · exact absurd hs (splitSlash_ne_nil rest)
      · rw [hs] at ih
        simp only [joinSlash, List.nil_append]
        rw [ih]
    · simp only [splitSlash, if_neg h]
      rcases hs : splitSlash rest with _ | ⟨t, ss⟩
      · exact absurd hs (splitSlash_ne_nil rest)
      · rw [hs] at ih
        cases ss with
        | nil =>
          simp only [joinSlash] at ih ⊢
          rw [ih]
        | cons t2 ss2 =>
          simp only [joinSlash, List.cons_append] at ih ⊢
          rw [ih]

theorem splitSlash_mem_no_slash (xs : List Char) :
    ∀ s ∈ splitSlash xs, '/' ∉ s := by
  induction xs with
  | nil =>
    intro s hs
    simp only [splitSlash, List.mem_singleton] at hs
    rw [hs]
    simp
  | cons c rest ih =>
    intro s hs
    by_cases h : c = '/'
    · subst h
      rw [splitSlash_cons_slash] at hs
      rcases List.mem_cons.mp hs with hEq | hmem
      · rw [hEq]
        simp
      · exact ih s hmem
    · simp only [splitSlash, if_neg h] at hs
      rcases hsp : splitSlash rest with _ | ⟨t, ss⟩
      · exact absurd hsp (splitSlash_ne_nil rest)
      · rw [hsp] at hs
        rcases List.mem_cons.mp hs with hEq | hmem
        · rw [hEq]
          intro hm
          rcases List.mem_cons.mp hm with hEq2 | hmem2
          · exact h hEq2.symm
          · exact ih t (by rw [hsp]; exact List.mem_cons_self t ss) hmem2
        · exact ih s (by rw [hsp]; exact List.mem_cons_of_mem t hmem)

theorem path_decomposition (x y z : List Char) :
    "/spire/agent/aws_iid/".data ++ x ++ '/' :: y ++ '/' :: z =
      [] ++ '/' :: ("spire".data ++ '/' :: ("agent".data ++ '/' ::
        ("aws_iid".data ++ '/' :: (x ++ '/' :: (y ++ '/' :: z))))) := by
  simp [List.append_assoc]

theorem reAgentIDPathMatch_iff (path a r i : String) :
    reAgentIDPathMatch path = some (a, r, i) ↔
      (a ≠ "" ∧ r ≠ "" ∧ i ≠ "" ∧ '/' ∉ a.data ∧ '/' ∉ r.data ∧ '/' ∉ i.data ∧
        path.data =
          "/spire/agent/aws_iid/".data ++ a.data ++ '/' :: r.data ++ '/' :: i.data) := by
  constructor
  · intro h
    rw [reAgentIDPathMatch] at h
    split at h
    case _ p0 p1 p2 p3 x y z heq =>
      split_ifs at h with hcond
      · obtain ⟨hp0, hp1, hp2, hp3, hx, hy, hz⟩ := hcond
        rw [Option.some.injEq, Prod.mk.injEq, Prod.mk.injEq] at h
        obtain ⟨hax, hry, hiz⟩ := h
        subst hax hry hiz hp0 hp1 hp2 hp3
        have hjoin := joinSlash_splitSlash path.data
        rw [heq] at hjoin
        simp only [joinSlash, List.nil_append] at hjoin
        refine ⟨?_, ?_, ?_, ?_, ?_, ?_, ?_⟩
        · intro hc
          exact hx (congrArg String.data hc)
        · intro hc
          exact hy (congrArg String.data hc)
        · intro hc
          exact hz (congrArg String.data hc)
        · exact splitSlash_mem_no_slash path.data x (by rw [heq]; simp)
        · exact splitSlash_mem_no_slash path.data y (by rw [heq]; simp)
        · exact splitSlash_mem_no_slash path.data z (by rw [heq]; simp)
        · rw [path_decomposition, List.nil_append, ← hjoin]
    case _ =>
      exact absurd h (by simp)
  · rintro ⟨ha, hr, hi, ha2, hr2, hi2, hpath⟩
    have ha3 : a.data ≠ [] := fun hc => ha (String.toList_inj.mp hc)
    have hr3 : r.data ≠ [] := fun hc => hr (String.toList_inj.mp hc)
    have hi3 : i.data ≠ [] := fun hc => hi (String.toList_inj.mp hc)
    have hsp : splitSlash path.data =
        [[], "spire".data, "agent".data, "aws_iid".data, a.data, r.data, i.data] := by
      rw [hpath, path_decomposition, List.nil_append, splitSlash_cons_slash,
        splitSlash_append "spire".data _ (by decide),
        splitSlash_append "agent".data _ (by decide),
        splitSlash_append "aws_iid".data _ (by decide),
        splitSlash_append a.data _ ha2,
        splitSlash_append r.data _ hr2,
        splitSlash_no_slash i.data hi2]
    rw [reAgentIDPathMatch, hsp]
    dsimp only
    rw [if_pos ⟨rfl, rfl, rfl, rfl, ha3, hr3, hi3⟩]

/-- C6: for every identity string and every behaviour of the external
identity parser (modelled from the spec as a function yielding the URI
path), `parseAgentID` succeeds if and only if the external parser accepts
the identity and the resulting path is the fixed agent namespace
`/spire/agent/aws_iid/` followed by exactly three non-empty slash-free
segments; on success the three segments are returned as account id,
region and instance id in that order. -/
theorem C6_parse_agent_id_iff (uriPath : String → Except String String)
    (s a r i : String) :
    parseAgentID uriPath s = .ok (a, r, i) ↔
      ∃ path, uriPath s = .ok path ∧ a ≠ "" ∧ r ≠ "" ∧ i ≠ "" ∧
        '/' ∉ a.data ∧ '/' ∉ r.data ∧ '/' ∉ i.data ∧
        path.data =
          "/spire/agent/aws_iid/".data ++ a.data ++ '/' :: r.data ++ '/' :: i.data := by
  constructor
  · intro h
    rcases hu : uriPath s with e | path
    · simp [parseAgentID, hu] at h
    · refine ⟨path, rfl, ?_⟩
      simp only [parseAgentID, hu] at h
      rcases hm : reAgentIDPathMatch path with _ | t
      · rw [hm] at h
        simp at h
      · obtain ⟨a0, r0, i0⟩ := t
        rw [hm] at h
        dsimp only at h
        rw [Except.ok.injEq, Prod.mk.injEq, Prod.mk.injEq] at h
        obtain ⟨h1, h2, h3⟩ := h
        subst h1 h2 h3
        exact (reAgentIDPathMatch_iff path a0 r0 i0).mp hm
  · rintro ⟨path, hu, hrest⟩
    simp only [parseAgentID, hu]
    rw [(reAgentIDPathMatch_iff path a r i).mpr hrest]

end SpireAwsIID
